import Mathlib

/-!
# Verification of the waffle public-input binder and turbo arithmetic widget

A shallow embedding of `public_inputs.cpp` (the `compute_public_input_delta`
binder) and `turbo_arithmetic_widget.cpp` (the prover/verifier turbo
arithmetic gate widget), together with theorems settling the specified
behaviour of these functions.

The scalar field is the BN254 (alt_bn128) scalar field `F_r`.  Field
arithmetic is external to the translated sources (the `fr::field_t` type);
it is modelled as `ZMod r` with exact modular semantics, as the spec
requires.
-/

/-- The BN254 scalar-field modulus (the order of the `fr::field_t` field). -/
def r : Nat := 21888242871839275222246405745257275088548364400416034343698204186575808495617

/-- The scalar field `fr::field_t`, modelled with exact modular semantics. -/
abbrev Fr : Type := ZMod r

/-- Fuelled binary modular exponentiation (square and multiply), used to give
an executable model of field inversion. -/
def powModAux (m : Nat) : Nat → Nat → Nat → Nat → Nat
  | 0, _, _, acc => acc
  | Nat.succ fuel, b, e, acc =>
    if e = 0 then acc
    else powModAux m fuel (b * b % m) (e / 2) (if e % 2 = 1 then acc * b % m else acc)

/-- `powMod b e m = b ^ e % m`, computed with 256 squarings of fuel (enough
for any exponent below `2 ^ 256`). -/
def powMod (b e m : Nat) : Nat := powModAux m 256 (b % m) e (1 % m)

/-- Modelled from the spec: `fr::field_t::invert` belongs to the external
`FieldArithmetic` collaborator (its source is not part of the translated
files).  The spec requires exact prime-field semantics, so inversion is
modelled as Fermat exponentiation `x ^ (r - 2) mod r`, which agrees with the
field inverse on nonzero elements and sends `0` to `0`. -/
def fr_invert (x : Fr) : Fr := (powMod x.val (r - 2) r : Nat)

/-- The loop body of `compute_public_input_delta` (`public_inputs.cpp`,
lines 130-139): fold over the public inputs carrying
`(numerator, denominator, work_root)`.  Each step computes
`T0 = witness + gamma`, `T1 = work_root * beta`, `T2 = T1 * k0`,
`T1 += T0`, `T2 += T0`, multiplies the two accumulators, and advances
`work_root` by the subgroup generator.  `k0` is the external constant
`fr::field_t::coset_generators[0]`, kept as a parameter. -/
def delta_accumulate (k0 beta gamma subgroup_generator : Fr) :
    List Fr → Fr × Fr × Fr → Fr × Fr × Fr
  | [], st => st
  | w :: rest, (num, den, work_root) =>
    let t0 := w + gamma
    let t1 := work_root * beta
    let t2 := t1 * k0
    let t1 := t1 + t0
    let t2 := t2 + t0
    delta_accumulate k0 beta gamma subgroup_generator rest
      (num * t2, den * t1, work_root * subgroup_generator)

/-- `compute_public_input_delta` (`public_inputs.cpp`, lines 118-143):
runs the accumulation loop from `(1, 1, 1)`, inverts the denominator once,
and returns `denominator⁻¹ * numerator`. -/
def compute_public_input_delta (k0 : Fr) (inputs : List Fr)
    (beta gamma subgroup_generator : Fr) : Fr :=
  let st := delta_accumulate k0 beta gamma subgroup_generator inputs (1, 1, 1)
  fr_invert st.2.1 * st.1

lemma delta_accumulate_eq (k0 beta gamma g : Fr) (l : List Fr)
    (num den root : Fr) :
    delta_accumulate k0 beta gamma g l (num, den, root) =
      (num * ∏ i in Finset.range l.length,
          (root * g ^ i * beta * k0 + l.getD i 0 + gamma),
       den * ∏ i in Finset.range l.length,
          (root * g ^ i * beta + l.getD i 0 + gamma),
       root * g ^ l.length) := by
  induction l generalizing num den root with
  | nil => simp [delta_accumulate]
  | cons w rest ih =>
    show delta_accumulate k0 beta gamma g rest
        (num * (root * beta * k0 + (w + gamma)),
         den * (root * beta + (w + gamma)), root * g) = _
    rw [ih]
    have hnum : ∏ i in Finset.range rest.length,
        (root * g * g ^ i * beta * k0 + rest.getD i 0 + gamma) =
        ∏ i in Finset.range rest.length,
        (root * g ^ (i + 1) * beta * k0 + rest.getD i 0 + gamma) :=
      Finset.prod_congr rfl (fun i _ => by rw [pow_succ]; ring_nf)
    have hden : ∏ i in Finset.range rest.length,
        (root * g * g ^ i * beta + rest.getD i 0 + gamma) =
        ∏ i in Finset.range rest.length,
        (root * g ^ (i + 1) * beta + rest.getD i 0 + gamma) :=
      Finset.prod_congr rfl (fun i _ => by rw [pow_succ]; ring_nf)
    rw [hnum, hden]
    simp only [List.length_cons, Finset.prod_range_succ']
    simp only [List.getD_cons_succ, List.getD_cons_zero, pow_zero, pow_succ]
    refine Prod.ext ?_ (Prod.ext ?_ ?_) <;> simp <;> ring

/-- C2: `compute_public_input_delta` returns `numerator · denominator⁻¹`,
with `numerator = ∏ i, (g^i·beta·k0 + v_i + gamma)` and
`denominator = ∏ i, (g^i·beta + v_i + gamma)`, a single inversion being
performed on the accumulated denominator. -/
theorem C2_public_input_delta_spec (k0 : Fr) (inputs : List Fr)
    (beta gamma g : Fr) :
    compute_public_input_delta k0 inputs beta gamma g =
      (∏ i in Finset.range inputs.length,
        (g ^ i * beta * k0 + inputs.getD i 0 + gamma)) *
      fr_invert (∏ i in Finset.range inputs.length,
        (g ^ i * beta + inputs.getD i 0 + gamma)) := by
  show fr_invert (delta_accumulate k0 beta gamma g inputs (1, 1, 1)).2.1 *
      (delta_accumulate k0 beta gamma g inputs (1, 1, 1)).1 = _
  rw [delta_accumulate_eq]
  simp only [one_mul]
  rw [mul_comm]

set_option maxRecDepth 40000 in
/-- C7: with an empty list of public inputs the delta is the multiplicative
identity, for every `beta`, `gamma` and subgroup generator. -/
theorem C7_delta_empty (k0 beta gamma g : Fr) :
    compute_public_input_delta k0 [] beta gamma g = 1 := by
  have h : fr_invert 1 = 1 := by decide
  show fr_invert 1 * 1 = 1
  rw [h, mul_one]

set_option maxRecDepth 80000 in
/-- C6 counterexample: with coset generator `k0 = 5`, the delta of the
single input `[5]` with `beta = 2`, `gamma = 3`, subgroup generator `7` is
NOT `(7·2·k0 + 5 + 3) · (7·2 + 5 + 3)⁻¹`: the work root starts at `1`
(so the only row uses `g^0 = 1`), and the generator multiplication happens
only after the row is consumed. -/
theorem C6_counterexample :
    ¬ (compute_public_input_delta 5 [5] 2 3 7 =
        (7 * 2 * 5 + 5 + 3) * fr_invert (7 * 2 + 5 + 3)) := by
  decide

/-- C6 (amended): the delta of `[5]` with `beta = 2`, `gamma = 3`,
subgroup generator `7` is `(1·2·k0 + 5 + 3) · (1·2 + 5 + 3)⁻¹` for every
coset generator `k0` — the single row uses the zeroth generator power
`g^0 = 1`, not `g^1 = 7`. -/
theorem C6_amended_delta_example (k0 : Fr) :
    compute_public_input_delta k0 [5] 2 3 7 =
      (1 * 2 * k0 + 5 + 3) * fr_invert (1 * 2 + 5 + 3) := by
  show fr_invert (1 * (1 * 2 + (5 + 3))) * (1 * (1 * 2 * k0 + (5 + 3))) = _
  norm_num
  ring

set_option maxRecDepth 80000 in
/-- C9 counterexample: with input `[1]`, `beta = 0`, `gamma = -1` the
per-row denominator term `g_0·beta + v_0 + gamma` is the additive identity,
so the accumulated denominator is zero — yet `compute_public_input_delta`
does not abort: it returns the field element `0` as its delta value. -/
theorem C9_counterexample :
    (delta_accumulate 5 0 (-1) 7 [1] (1, 1, 1)).2.1 = 0 ∧
    compute_public_input_delta 5 [1] 0 (-1) 7 = 0 := by
  constructor
  · decide
  · decide

set_option maxRecDepth 40000 in
/-- C9 (amended): `compute_public_input_delta` performs no zero-denominator
check and never aborts: whenever ANY per-row denominator term
`g^i·beta + v_i + gamma` is the additive identity — any row, any `beta`,
`gamma`, generator and coset generator — the accumulated denominator is
zero, the function still calls invert on it and returns the delta value
`invert(0) · numerator = 0` instead of signalling a degenerate
challenge. -/
theorem C9_amended_no_abort (k0 : Fr) (inputs : List Fr)
    (beta gamma g : Fr) (i : Nat) (hi : i < inputs.length)
    (hzero : g ^ i * beta + inputs.getD i 0 + gamma = 0) :
    compute_public_input_delta k0 inputs beta gamma g = 0 := by
  show fr_invert (delta_accumulate k0 beta gamma g inputs (1, 1, 1)).2.1 *
      (delta_accumulate k0 beta gamma g inputs (1, 1, 1)).1 = 0
  rw [delta_accumulate_eq]
  simp only [one_mul]
  rw [Finset.prod_eq_zero (Finset.mem_range.mpr hi) hzero]
  have h0 : fr_invert 0 = 0 := by decide
  rw [h0, zero_mul]

/-- C9 witness: the amended theorem instantiated at inputs `[1]`,
`beta = 0`, `gamma = -1`, generator `7`, coset generator `5`, row `0`,
where the row term `7^0·0 + 1 + (-1)` vanishes. -/
theorem C9_amended_no_abort_witness :
    (0 < ([1] : List Fr).length ∧
      (7 : Fr) ^ 0 * 0 + ([1] : List Fr).getD 0 0 + (-1) = 0) ∧
    compute_public_input_delta 5 [1] 0 (-1) 7 = 0 :=
  ⟨⟨by decide, by decide⟩,
   C9_amended_no_abort 5 [1] 0 (-1) 7 0 (by decide) (by decide)⟩

/-- The quad-extraction term of the prover quotient path
(`turbo_arithmetic_widget.cpp`, quotient loop): from `w_3, w_4` it forms
`delta = w_3 - (w_4 + w_4 + (w_4 + w_4))` by doubling twice, then the
add-chains for `2·delta²` and `9·delta`, and returns
`delta * (9·delta - 2·delta² - 7)`. -/
def prover_quad_term (w_3 w_4 : Fr) : Fr :=
  let seven : Fr := 7
  let t2 := w_4 + w_4
  let t2 := t2 + t2
  let t2 := w_3 - t2
  let t3 := t2 * t2
  let t3 := t3 + t3
  let t4 := t2 + t2
  let t4 := t4 + t2
  let t5 := t4 + t4
  let t4 := t4 + t5
  let t4 := t4 - t3
  let t4 := t4 - seven
  t2 * t4

/-- The quad-extraction term of the verifier quotient-evaluation path
(`compute_quotient_evaluation_contribution`): the same step sequence as the
prover, applied to the transcript evaluations of `w_3, w_4` at `z`. -/
def verifier_quad_term (w_3_eval w_4_eval : Fr) : Fr :=
  let seven : Fr := 7
  let t2 := w_4_eval + w_4_eval
  let t2 := t2 + t2
  let t2 := w_3_eval - t2
  let t3 := t2 * t2
  let t3 := t3 + t3
  let t4 := t2 + t2
  let t4 := t4 + t2
  let t5 := t4 + t4
  let t4 := t4 + t5
  let t4 := t4 - t3
  let t4 := t4 - seven
  t2 * t4

/-- The per-index quotient term of the prover turbo arithmetic widget
(`compute_quotient_contribution`, inner loop): the primary gate sum
`q_m·w_1·w_2 + q_1·w_1 + q_2·w_2 + q_3·w_3 + q_4·w_4
 + q_5·(w_4² - w_4)·(w_4 - 2)·alpha + q_c`, gated by `q_arith`, plus
`(q_arith² - q_arith)` times the quad-extraction term. -/
def quotient_term (q_1v q_2v q_3v q_4v q_5v q_mv q_cv q_arithv : Fr)
    (w_1v w_2v w_3v w_4v alpha : Fr) : Fr :=
  let two : Fr := 2
  let t0 := w_1v * q_mv
  let t0 := t0 * w_2v
  let t1 := w_1v * q_1v
  let t2 := w_2v * q_2v
  let t3 := w_3v * q_3v
  let t4 := w_4v * q_4v
  let t5 := w_4v * w_4v
  let t5 := t5 - w_4v
  let t6 := w_4v - two
  let t5 := t5 * t6
  let t5 := t5 * q_5v
  let t5 := t5 * alpha
  let t0 := t0 + t1
  let t2 := t2 + t3
  let t4 := t4 + t5
  let t0 := t0 + t2
  let t0 := t0 + t4
  let t0 := t0 + q_cv
  let t0 := t0 * q_arithv
  let t1 := q_arithv * q_arithv
  let t1 := t1 - q_arithv
  let t1 := t1 * prover_quad_term w_3v w_4v
  t0 + t1

/-- The FFT (large-domain evaluation) data the prover quotient loop reads
from the proving key: the eight selector FFTs, the four wire FFTs, and the
large domain size (`num_threads * thread_size`). Polynomials are modelled as
index-to-coefficient functions. -/
structure ProverKeyFFTs where
  q_1_fft : Nat → Fr
  q_2_fft : Nat → Fr
  q_3_fft : Nat → Fr
  q_4_fft : Nat → Fr
  q_5_fft : Nat → Fr
  q_m_fft : Nat → Fr
  q_c_fft : Nat → Fr
  q_arith_fft : Nat → Fr
  w_1_fft : Nat → Fr
  w_2_fft : Nat → Fr
  w_3_fft : Nat → Fr
  w_4_fft : Nat → Fr
  large_domain_size : Nat

/-- `ProverTurboArithmeticWidget::compute_quotient_contribution`: for each
index of the large domain, scales the per-index term by `alpha_base` and
adds it into the shared quotient accumulator; entries outside the domain are
untouched.  Returns the updated accumulator together with the chained value
`alpha_base * alpha²`.  `alpha` stands for the transcript challenge. -/
def compute_quotient_contribution (k : ProverKeyFFTs)
    (alpha_base alpha : Fr) (quotient_large : Nat → Fr) :
    (Nat → Fr) × Fr :=
  (fun i =>
    if i < k.large_domain_size then
      quotient_large i +
        quotient_term (k.q_1_fft i) (k.q_2_fft i) (k.q_3_fft i) (k.q_4_fft i)
          (k.q_5_fft i) (k.q_m_fft i) (k.q_c_fft i) (k.q_arith_fft i)
          (k.w_1_fft i) (k.w_2_fft i) (k.w_3_fft i) (k.w_4_fft i) alpha *
          alpha_base
    else quotient_large i,
   alpha_base * (alpha * alpha))

/-- The monomial-form selector data the prover linearization loop reads
from the proving key, with the small domain size. -/
structure ProverKeyMonomials where
  q_1 : Nat → Fr
  q_2 : Nat → Fr
  q_3 : Nat → Fr
  q_4 : Nat → Fr
  q_5 : Nat → Fr
  q_m : Nat → Fr
  q_c : Nat → Fr
  q_arith : Nat → Fr
  small_domain_size : Nat

/-- `ProverTurboArithmeticWidget::compute_linear_contribution`: using the
transcript evaluations `w_1..w_4` at `z`, forms `w_lr = w_1·w_2` and
`is_w_4_bool = (w_4² - w_4)·(w_4 - 2)·alpha`, and for every small-domain
index adds `(w_lr·q_m[i] + w_1·q_1[i] + w_2·q_2[i] + w_3·q_3[i]
+ w_4·q_4[i] + is_w_4_bool·q_5[i] + q_c[i]) · q_arith_eval · alpha_base`
into the linearization polynomial `r`.  Returns the updated polynomial and
`alpha_base * alpha²`. -/
def compute_linear_contribution (k : ProverKeyMonomials)
    (alpha_base alpha : Fr)
    (w_l_eval w_r_eval w_o_eval w_4_eval q_arith_eval : Fr)
    (rpoly : Nat → Fr) : (Nat → Fr) × Fr :=
  let two : Fr := 2
  let w_lr := w_l_eval * w_r_eval
  let is_w_4_bool := (w_4_eval * w_4_eval - w_4_eval) * (w_4_eval - two) * alpha
  (fun i =>
    if i < k.small_domain_size then
      rpoly i +
        ((w_lr * k.q_m i + w_l_eval * k.q_1 i +
          (w_r_eval * k.q_2 i + w_o_eval * k.q_3 i) +
          (w_4_eval * k.q_4 i + is_w_4_bool * k.q_5 i) + k.q_c i) *
          q_arith_eval) * alpha_base
    else rpoly i,
   alpha_base * (alpha * alpha))

/-- `VerifierTurboArithmeticWidget::compute_quotient_evaluation_contribution`:
adds `(q_arith_eval² - q_arith_eval) ·` (quad term of `w_3(z), w_4(z)`)
`· alpha_base` into `t_eval` and returns the updated `t_eval` with the
chained `alpha_base * alpha²`. -/
def compute_quotient_evaluation_contribution
    (alpha_base alpha q_arith_eval w_3_eval w_4_eval t_eval : Fr) :
    Fr × Fr :=
  let t1 := q_arith_eval * q_arith_eval
  let t1 := t1 - q_arith_eval
  let t1 := t1 * verifier_quad_term w_3_eval w_4_eval
  let t1 := t1 * alpha_base
  (t_eval + t1, alpha_base * (alpha * alpha))

/-- The field element `7 · 2⁻¹`, i.e. `(r + 7) / 2`: the third root of the
cubic `(9·d - 2·d² - 7) · d = -d·(d - 1)·(2·d - 7)`. -/
def quad_half_seven : Fr :=
  10944121435919637611123202872628637544274182200208017171849102093287904247812

set_option maxRecDepth 40000 in
/-- C5 counterexample: at `d = 7·2⁻¹` (taking `w_3 = d`, `w_4 = 0`) the
bit-extraction term of both the prover and the verifier path is zero
although `d` is neither `0` nor `1`, so "zero if and only if d is 0 or 1"
fails as a statement about every field element. -/
theorem C5_counterexample :
    ¬ ((prover_quad_term quad_half_seven 0 = 0 ↔
          quad_half_seven = 0 ∨ quad_half_seven = 1) ∧
       (verifier_quad_term quad_half_seven 0 = 0 ↔
          quad_half_seven = 0 ∨ quad_half_seven = 1)) := by
  decide

/-- C5 (amended): with `d = w_3 - 4·w_4`, the prover quotient path and the
verifier quotient-evaluation path compute the identical bit-extraction
term `(9·d - 2·d² - 7)·d`; it is zero when `d ∈ {0, 1}` and equals the
nonzero value `6` when `d ∈ {2, 3}` (it also vanishes at the third root
`d = 7·2⁻¹`, so zero does not imply `d ∈ {0, 1}`). -/
theorem C5_amended_quad_term (w_3 w_4 d : Fr) (hd : d = w_3 - 4 * w_4) :
    prover_quad_term w_3 w_4 = verifier_quad_term w_3 w_4 ∧
    prover_quad_term w_3 w_4 = (9 * d - 2 * d ^ 2 - 7) * d ∧
    (d = 0 ∨ d = 1 → prover_quad_term w_3 w_4 = 0) ∧
    (d = 2 ∨ d = 3 →
      prover_quad_term w_3 w_4 = 6 ∧ prover_quad_term w_3 w_4 ≠ 0) := by
  subst hd
  have hval : prover_quad_term w_3 w_4 =
      (9 * (w_3 - 4 * w_4) - 2 * (w_3 - 4 * w_4) ^ 2 - 7) *
        (w_3 - 4 * w_4) := by
    simp only [prover_quad_term]
    ring
  refine ⟨rfl, hval, ?_, ?_⟩
  · rintro (h | h) <;> rw [hval, h] <;> ring
  · rintro (h | h) <;> rw [hval, h] <;> exact ⟨by decide, by decide⟩

/-- C5 witness: the amended theorem instantiated at `w_3 = 3`, `w_4 = 0`,
`d = 3`. -/
theorem C5_amended_quad_term_witness :
    (3 : Fr) = 3 - 4 * 0 ∧
    (prover_quad_term 3 0 = verifier_quad_term 3 0 ∧
     prover_quad_term 3 0 = (9 * 3 - 2 * 3 ^ 2 - 7) * 3 ∧
     ((3 : Fr) = 0 ∨ (3 : Fr) = 1 → prover_quad_term 3 0 = 0) ∧
     ((3 : Fr) = 2 ∨ (3 : Fr) = 3 →
       prover_quad_term 3 0 = 6 ∧ prover_quad_term 3 0 ≠ 0)) :=
  ⟨by decide, C5_amended_quad_term 3 0 3 (by decide)⟩

/-- The per-index quotient addend exactly as claim C1 words it: gate sum
with the `q_5` sub-term `q_5·(w_4² - w_4)·(w_4 - 2)` carrying NO `alpha`
factor, gated by `q_arith`, plus the secondary term.  Stated from the
claim text for comparison against the translated code. -/
def claim_C1_term (q_1v q_2v q_3v q_4v q_5v q_mv q_cv q_arithv : Fr)
    (w_1v w_2v w_3v w_4v : Fr) : Fr :=
  q_arithv * (q_mv * w_1v * w_2v + q_1v * w_1v + q_2v * w_2v +
    q_3v * w_3v + q_4v * w_4v +
    q_5v * ((w_4v ^ 2 - w_4v) * (w_4v - 2)) + q_cv) +
  (q_arithv ^ 2 - q_arithv) *
    ((9 * (w_3v - 4 * w_4v) - 2 * (w_3v - 4 * w_4v) ^ 2 - 7) *
      (w_3v - 4 * w_4v))

/-- The per-index quotient addend of the amended claim C1: identical to the
claimed formula except that the `q_5` bit-extraction sub-term additionally
carries the challenge factor `alpha`, as the code computes it. -/
def amended_C1_term (q_1v q_2v q_3v q_4v q_5v q_mv q_cv q_arithv : Fr)
    (w_1v w_2v w_3v w_4v alpha : Fr) : Fr :=
  q_arithv * (q_mv * w_1v * w_2v + q_1v * w_1v + q_2v * w_2v +
    q_3v * w_3v + q_4v * w_4v +
    q_5v * ((w_4v ^ 2 - w_4v) * (w_4v - 2)) * alpha + q_cv) +
  (q_arithv ^ 2 - q_arithv) *
    ((9 * (w_3v - 4 * w_4v) - 2 * (w_3v - 4 * w_4v) ^ 2 - 7) *
      (w_3v - 4 * w_4v))

/-- A one-point large domain with `q_5 = 1`, `q_arith = 1`, `w_4 = 3` and
every other selector and wire zero: an input on which the `q_5` sub-term is
active, separating the claimed formula from the code. -/
def exC1Key : ProverKeyFFTs :=
  ⟨fun _ => 0, fun _ => 0, fun _ => 0, fun _ => 0, fun _ => 1,
   fun _ => 0, fun _ => 0, fun _ => 1, fun _ => 0, fun _ => 0,
   fun _ => 0, fun _ => 3, 1⟩

/-- C1 counterexample: with `alpha = 2`, `alpha_base = 1`, a zero
accumulator and the key `exC1Key`, the code adds `12` at index `0` (the
`q_5` sub-term is multiplied by `alpha`), while the claimed formula
predicts `6`. -/
theorem C1_counterexample :
    ¬ ((compute_quotient_contribution exC1Key 1 2 (fun _ => 0)).1 0 =
        (fun _ : Nat => (0 : Fr)) 0 +
          1 * claim_C1_term 0 0 0 0 1 0 0 1 0 0 0 3) := by
  decide

/-- C1 (amended): at every large-domain index `i` the quotient accumulator
receives exactly `alpha_base` times the gate identity in which the `q_5`
sub-term carries the extra factor `alpha`; entries outside the domain are
unchanged; the returned chain value is `alpha_base · alpha²`. -/
theorem C1_amended_quotient_contribution (k : ProverKeyFFTs)
    (alpha_base alpha : Fr) (q : Nat → Fr) (i j : Nat)
    (hi : i < k.large_domain_size) (hj : ¬ j < k.large_domain_size) :
    (compute_quotient_contribution k alpha_base alpha q).1 i =
      q i + alpha_base *
        amended_C1_term (k.q_1_fft i) (k.q_2_fft i) (k.q_3_fft i)
          (k.q_4_fft i) (k.q_5_fft i) (k.q_m_fft i) (k.q_c_fft i)
          (k.q_arith_fft i) (k.w_1_fft i) (k.w_2_fft i) (k.w_3_fft i)
          (k.w_4_fft i) alpha ∧
    (compute_quotient_contribution k alpha_base alpha q).1 j = q j ∧
    (compute_quotient_contribution k alpha_base alpha q).2 =
      alpha_base * alpha ^ 2 := by
  refine ⟨?_, ?_, ?_⟩
  · simp only [compute_quotient_contribution]
    rw [if_pos hi]
    simp only [quotient_term, prover_quad_term, amended_C1_term]
    ring
  · simp only [compute_quotient_contribution]
    rw [if_neg hj]
  · simp only [compute_quotient_contribution]
    ring

/-- C1 witness: the amended theorem instantiated on `exC1Key` with
`alpha_base = 1`, `alpha = 2`, the zero accumulator, `i = 0`, `j = 1`. -/
theorem C1_amended_quotient_contribution_witness :
    (0 < exC1Key.large_domain_size ∧ ¬ 1 < exC1Key.large_domain_size) ∧
    ((compute_quotient_contribution exC1Key 1 2 (fun _ => 0)).1 0 =
       0 + 1 * amended_C1_term 0 0 0 0 1 0 0 1 0 0 0 3 2 ∧
     (compute_quotient_contribution exC1Key 1 2 (fun _ => 0)).1 1 = 0 ∧
     (compute_quotient_contribution exC1Key 1 2 (fun _ => 0)).2 =
       1 * 2 ^ 2) :=
  ⟨⟨by decide, by decide⟩,
   C1_amended_quotient_contribution exC1Key 1 2 (fun _ => 0) 0 1
     (by decide) (by decide)⟩

/-- The per-index linearization addend exactly as claim C3 words it: the
full quotient-path gate identity — primary sum against the selector values
at the index AND the secondary `q_arith = 2` term — evaluated on the
transcript scalars.  Stated from the claim text for comparison against
the translated code. -/
def claim_C3_term (q_1i q_2i q_3i q_4i q_5i q_mi q_ci : Fr)
    (w_l w_r w_o w_4e q_arith_eval alpha : Fr) : Fr :=
  q_arith_eval * (q_mi * w_l * w_r + q_1i * w_l + q_2i * w_r +
    q_3i * w_o + q_4i * w_4e +
    q_5i * ((w_4e ^ 2 - w_4e) * (w_4e - 2)) * alpha + q_ci) +
  (q_arith_eval ^ 2 - q_arith_eval) *
    ((9 * (w_o - 4 * w_4e) - 2 * (w_o - 4 * w_4e) ^ 2 - 7) *
      (w_o - 4 * w_4e))

/-- The per-index linearization addend of the amended claim C3: only the
primary gate identity, gated by the `q_arith` evaluation — the secondary
`q_arith = 2` term is absent from the linearization path (the verifier adds
it directly in its quotient-evaluation contribution). -/
def amended_C3_term (q_1i q_2i q_3i q_4i q_5i q_mi q_ci : Fr)
    (w_l w_r w_o w_4e q_arith_eval alpha : Fr) : Fr :=
  q_arith_eval * (q_mi * w_l * w_r + q_1i * w_l + q_2i * w_r +
    q_3i * w_o + q_4i * w_4e +
    q_5i * ((w_4e ^ 2 - w_4e) * (w_4e - 2)) * alpha + q_ci)

/-- A one-point small domain with every selector polynomial zero: with
`q_arith(z) = 2` and `w_3(z) = 2` the secondary term of the claimed
identity is active although every selector vanishes. -/
def exC3Key : ProverKeyMonomials :=
  ⟨fun _ => 0, fun _ => 0, fun _ => 0, fun _ => 0, fun _ => 0,
   fun _ => 0, fun _ => 0, fun _ => 0, 1⟩

/-- C3 counterexample: on `exC3Key` with `q_arith(z) = 2`, `w_3(z) = 2`,
`w_4(z) = 0` and zero selectors, the code adds `0` into `r` at index `0`
while the claimed identity (which contains the secondary `q_arith = 2`
term) predicts an addend of `12`. -/
theorem C3_counterexample :
    ¬ ((compute_linear_contribution exC3Key 1 1 0 0 2 0 2 (fun _ => 0)).1 0 =
        (fun _ : Nat => (0 : Fr)) 0 +
          1 * claim_C3_term 0 0 0 0 0 0 0 0 0 2 0 2 1) := by
  decide

/-- C3 (amended): at every small-domain index the linearization polynomial
receives exactly `alpha_base` times the PRIMARY gate identity (with the
`q_5` sub-term carrying `alpha`), gated by the `q_arith` evaluation; the
secondary `q_arith = 2` term does not appear in this path; other entries
are unchanged and the returned chain value is `alpha_base · alpha²`. -/
theorem C3_amended_linear_contribution (k : ProverKeyMonomials)
    (alpha_base alpha w_l w_r w_o w_4e qa : Fr) (rp : Nat → Fr)
    (i j : Nat) (hi : i < k.small_domain_size)
    (hj : ¬ j < k.small_domain_size) :
    (compute_linear_contribution k alpha_base alpha w_l w_r w_o w_4e qa
        rp).1 i =
      rp i + alpha_base *
        amended_C3_term (k.q_1 i) (k.q_2 i) (k.q_3 i) (k.q_4 i) (k.q_5 i)
          (k.q_m i) (k.q_c i) w_l w_r w_o w_4e qa alpha ∧
    (compute_linear_contribution k alpha_base alpha w_l w_r w_o w_4e qa
        rp).1 j = rp j ∧
    (compute_linear_contribution k alpha_base alpha w_l w_r w_o w_4e qa
        rp).2 = alpha_base * alpha ^ 2 := by
  refine ⟨?_, ?_, ?_⟩
  · simp only [compute_linear_contribution]
    rw [if_pos hi]
    simp only [amended_C3_term]
    ring
  · simp only [compute_linear_contribution]
    rw [if_neg hj]
  · simp only [compute_linear_contribution]
    ring

/-- C3 witness: the amended theorem instantiated on `exC3Key` with
`alpha_base = 1`, `alpha = 1`, evaluations `(0, 0, 2, 0)`, `q_arith(z) = 2`,
the zero polynomial, `i = 0`, `j = 1`. -/
theorem C3_amended_linear_contribution_witness :
    (0 < exC3Key.small_domain_size ∧ ¬ 1 < exC3Key.small_domain_size) ∧
    ((compute_linear_contribution exC3Key 1 1 0 0 2 0 2 (fun _ => 0)).1 0 =
       0 + 1 * amended_C3_term 0 0 0 0 0 0 0 0 0 2 0 2 1 ∧
     (compute_linear_contribution exC3Key 1 1 0 0 2 0 2 (fun _ => 0)).1 1 =
       0 ∧
     (compute_linear_contribution exC3Key 1 1 0 0 2 0 2 (fun _ => 0)).2 =
       1 * 1 ^ 2) :=
  ⟨⟨by decide, by decide⟩,
   C3_amended_linear_contribution exC3Key 1 1 0 0 2 0 2 (fun _ => 0) 0 1
     (by decide) (by decide)⟩

/-- The eight selector commitments of the verification key consumed by the
verifier widget.  The curve point type and the on-curve predicate belong to
the external elliptic-curve collaborator, so the point type is abstract. -/
structure VerificationKeySelectors (Point : Type) where
  Q_1 : Point
  Q_2 : Point
  Q_3 : Point
  Q_4 : Point
  Q_5 : Point
  Q_M : Point
  Q_C : Point
  Q_ARITHMETIC_SELECTOR : Point

/-- `VerifierBaseWidget::challenge_coefficients`:
`{alpha_base, alpha_step, nu_base, nu_step, linear_nu}`. -/
structure ChallengeCoefficients where
  alpha_base : Fr
  alpha_step : Fr
  nu_base : Fr
  nu_step : Fr
  linear_nu : Fr

/-- The transcript scalar evaluations the verifier widget reads:
`w_1, w_2, w_3, w_4` and `q_arith` at `z`. -/
structure TranscriptWireEvals where
  w_1 : Fr
  w_2 : Fr
  w_3 : Fr
  w_4 : Fr
  q_arith : Fr

/-- `VerifierTurboArithmeticWidget::append_scalar_multiplication_inputs`:
computes the eight scalar terms in order `Q_1, Q_2, Q_3, Q_4, Q_5, Q_M,
Q_C, Q_ARITHMETIC_SELECTOR`, conditionally pushes each `(commitment,
scalar)` pair when the commitment passes the on-curve check, and returns
the updated challenge coefficients
`{alpha_base·alpha_step², alpha_step, nu_base·nu_step, nu_step,
linear_nu}`. -/
def append_scalar_multiplication_inputs {Point : Type}
    (on_curve : Point → Bool) (key : VerificationKeySelectors Point)
    (t : TranscriptWireEvals) (challenge : ChallengeCoefficients)
    (points : List Point) (scalars : List Fr) :
    List Point × List Fr × ChallengeCoefficients :=
  let q_l_term := t.w_1 * challenge.alpha_base * challenge.linear_nu * t.q_arith
  let points1 := if on_curve key.Q_1 then points ++ [key.Q_1] else points
  let scalars1 := if on_curve key.Q_1 then scalars ++ [q_l_term] else scalars
  let q_r_term := t.w_2 * challenge.alpha_base * challenge.linear_nu * t.q_arith
  let points2 := if on_curve key.Q_2 then points1 ++ [key.Q_2] else points1
  let scalars2 := if on_curve key.Q_2 then scalars1 ++ [q_r_term] else scalars1
  let q_o_term := t.w_3 * challenge.alpha_base * challenge.linear_nu * t.q_arith
  let points3 := if on_curve key.Q_3 then points2 ++ [key.Q_3] else points2
  let scalars3 := if on_curve key.Q_3 then scalars2 ++ [q_o_term] else scalars2
  let q_4_term := t.w_4 * challenge.alpha_base * challenge.linear_nu * t.q_arith
  let points4 := if on_curve key.Q_4 then points3 ++ [key.Q_4] else points3
  let scalars4 := if on_curve key.Q_4 then scalars3 ++ [q_4_term] else scalars3
  let q_5_term := (t.w_4 * t.w_4 - t.w_4) * (t.w_4 - 2) *
    challenge.alpha_step * challenge.alpha_base * challenge.linear_nu *
    t.q_arith
  let points5 := if on_curve key.Q_5 then points4 ++ [key.Q_5] else points4
  let scalars5 := if on_curve key.Q_5 then scalars4 ++ [q_5_term] else scalars4
  let q_m_term := t.w_1 * t.w_2 * challenge.alpha_base * t.q_arith *
    challenge.linear_nu
  let points6 := if on_curve key.Q_M then points5 ++ [key.Q_M] else points5
  let scalars6 := if on_curve key.Q_M then scalars5 ++ [q_m_term] else scalars5
  let q_c_term := challenge.alpha_base * challenge.linear_nu * t.q_arith
  let points7 := if on_curve key.Q_C then points6 ++ [key.Q_C] else points6
  let scalars7 := if on_curve key.Q_C then scalars6 ++ [q_c_term] else scalars6
  let points8 := if on_curve key.Q_ARITHMETIC_SELECTOR then
    points7 ++ [key.Q_ARITHMETIC_SELECTOR] else points7
  let scalars8 := if on_curve key.Q_ARITHMETIC_SELECTOR then
    scalars7 ++ [challenge.nu_base] else scalars7
  (points8, scalars8,
   ⟨challenge.alpha_base * (challenge.alpha_step * challenge.alpha_step),
    challenge.alpha_step,
    challenge.nu_base * challenge.nu_step,
    challenge.nu_step,
    challenge.linear_nu⟩)

/-- The candidate `(commitment, scalar)` pairs of the verifier widget, in
the fixed push order, with the scalar formulas of the code. -/
def turbo_selector_pairs {Point : Type}
    (key : VerificationKeySelectors Point) (t : TranscriptWireEvals)
    (challenge : ChallengeCoefficients) : List (Point × Fr) :=
  [(key.Q_1, t.w_1 * challenge.alpha_base * challenge.linear_nu * t.q_arith),
   (key.Q_2, t.w_2 * challenge.alpha_base * challenge.linear_nu * t.q_arith),
   (key.Q_3, t.w_3 * challenge.alpha_base * challenge.linear_nu * t.q_arith),
   (key.Q_4, t.w_4 * challenge.alpha_base * challenge.linear_nu * t.q_arith),
   (key.Q_5, (t.w_4 * t.w_4 - t.w_4) * (t.w_4 - 2) * challenge.alpha_step *
      challenge.alpha_base * challenge.linear_nu * t.q_arith),
   (key.Q_M, t.w_1 * t.w_2 * challenge.alpha_base * t.q_arith *
      challenge.linear_nu),
   (key.Q_C, challenge.alpha_base * challenge.linear_nu * t.q_arith),
   (key.Q_ARITHMETIC_SELECTOR, challenge.nu_base)]

lemma append_scalar_multiplication_inputs_eq {Point : Type}
    (on_curve : Point → Bool) (key : VerificationKeySelectors Point)
    (t : TranscriptWireEvals) (challenge : ChallengeCoefficients)
    (points : List Point) (scalars : List Fr) :
    append_scalar_multiplication_inputs on_curve key t challenge points
        scalars =
      (points ++ ((turbo_selector_pairs key t challenge).filter
          (fun p => on_curve p.1)).map Prod.fst,
       scalars ++ ((turbo_selector_pairs key t challenge).filter
          (fun p => on_curve p.1)).map Prod.snd,
       ⟨challenge.alpha_base * (challenge.alpha_step * challenge.alpha_step),
        challenge.alpha_step, challenge.nu_base * challenge.nu_step,
        challenge.nu_step, challenge.linear_nu⟩) := by
  cases h1 : on_curve key.Q_1 <;> cases h2 : on_curve key.Q_2 <;>
    cases h3 : on_curve key.Q_3 <;> cases h4 : on_curve key.Q_4 <;>
    cases h5 : on_curve key.Q_5 <;> cases h6 : on_curve key.Q_M <;>
    cases h7 : on_curve key.Q_C <;>
    cases h8 : on_curve key.Q_ARITHMETIC_SELECTOR <;>
    simp [append_scalar_multiplication_inputs, turbo_selector_pairs,
      h1, h2, h3, h4, h5, h6, h7, h8]

/-- C4: for each of the eight selector commitments passing the on-curve
check, exactly one `(commitment, scalar)` pair is pushed, in order, with
the scalar mirroring the prover linear coefficient (`q_l_term =
w_1(z)·alpha_base·linear_nu·q_arith(z)` and so on, the `Q_5` scalar
additionally carrying `alpha_step`, the `Q_ARITHMETIC_SELECTOR` scalar
being `nu_base`); the returned tuple is `{alpha_base·alpha_step²,
alpha_step, nu_base·nu_step, nu_step, linear_nu}`. -/
theorem C4_append_scalar_multiplication_inputs_spec {Point : Type}
    (on_curve : Point → Bool) (key : VerificationKeySelectors Point)
    (t : TranscriptWireEvals) (challenge : ChallengeCoefficients)
    (points : List Point) (scalars : List Fr) :
    append_scalar_multiplication_inputs on_curve key t challenge points
        scalars =
      (points ++ ((turbo_selector_pairs key t challenge).filter
          (fun p => on_curve p.1)).map Prod.fst,
       scalars ++ ((turbo_selector_pairs key t challenge).filter
          (fun p => on_curve p.1)).map Prod.snd,
       ⟨challenge.alpha_base * challenge.alpha_step ^ 2,
        challenge.alpha_step, challenge.nu_base * challenge.nu_step,
        challenge.nu_step, challenge.linear_nu⟩) := by
  rw [append_scalar_multiplication_inputs_eq]
  rw [pow_two]

/-- C8: a commitment that fails the on-curve check is skipped — the call
never pushes it onto the points vector — and the function completes,
returning a value, rather than raising an error. -/
theorem C8_skip_invalid_commitment {Point : Type}
    (on_curve : Point → Bool) (key : VerificationKeySelectors Point)
    (t : TranscriptWireEvals) (challenge : ChallengeCoefficients)
    (points : List Point) (scalars : List Fr) (p : Point)
    (hp : on_curve p = false) :
    p ∉ (append_scalar_multiplication_inputs on_curve key t challenge
        points scalars).1.drop points.length := by
  rw [append_scalar_multiplication_inputs_eq]
  rw [List.drop_left]
  simp only [List.mem_map, List.mem_filter, not_exists, not_and]
  rintro ⟨q, s⟩ ⟨hmem, hoc⟩ hq
  rw [hq] at hoc
  rw [hp] at hoc
  exact Bool.false_ne_true hoc

/-- A concrete verification key over `Point := Nat`, used to instantiate
the verifier-widget theorems on explicit inputs. -/
def exVKey : VerificationKeySelectors Nat := ⟨0, 1, 2, 3, 4, 5, 6, 7⟩

/-- Concrete transcript evaluations for the verifier-widget witnesses. -/
def exEvals : TranscriptWireEvals := ⟨0, 0, 0, 0, 0⟩

/-- Concrete challenge coefficients for the verifier-widget witnesses. -/
def exCoeffs : ChallengeCoefficients := ⟨0, 0, 0, 0, 0⟩

/-- C8 witness: with every commitment failing the on-curve check, the
point `0` (the `Q_1` commitment of `exVKey`) is not pushed. -/
theorem C8_skip_invalid_commitment_witness :
    (fun _ : Nat => false) 0 = false ∧
    0 ∉ (append_scalar_multiplication_inputs (fun _ : Nat => false) exVKey
        exEvals exCoeffs [] []).1.drop ([] : List Nat).length :=
  ⟨rfl, C8_skip_invalid_commitment (fun _ => false) exVKey exEvals
    exCoeffs [] [] 0 rfl⟩

/-- C10: a call extends the points and scalars vectors by the same number
of elements (one per on-curve commitment, in the fixed order `Q_1, Q_2,
Q_3, Q_4, Q_5, Q_M, Q_C, Q_ARITHMETIC_SELECTOR`), appends corresponding
entries at matching positions, and never modifies a pre-existing entry of
either vector. -/
theorem C10_append_invariants {Point : Type}
    (on_curve : Point → Bool) (key : VerificationKeySelectors Point)
    (t : TranscriptWireEvals) (challenge : ChallengeCoefficients)
    (points : List Point) (scalars : List Fr) :
    ((append_scalar_multiplication_inputs on_curve key t challenge points
        scalars).1.length =
      points.length + ((turbo_selector_pairs key t challenge).filter
        (fun p => on_curve p.1)).length ∧
     (append_scalar_multiplication_inputs on_curve key t challenge points
        scalars).2.1.length =
      scalars.length + ((turbo_selector_pairs key t challenge).filter
        (fun p => on_curve p.1)).length) ∧
    ((append_scalar_multiplication_inputs on_curve key t challenge points
        scalars).1.take points.length = points ∧
     (append_scalar_multiplication_inputs on_curve key t challenge points
        scalars).2.1.take scalars.length = scalars) ∧
    ((append_scalar_multiplication_inputs on_curve key t challenge points
        scalars).1.drop points.length =
      ((turbo_selector_pairs key t challenge).filter
        (fun p => on_curve p.1)).map Prod.fst ∧
     (append_scalar_multiplication_inputs on_curve key t challenge points
        scalars).2.1.drop scalars.length =
      ((turbo_selector_pairs key t challenge).filter
        (fun p => on_curve p.1)).map Prod.snd) := by
  rw [append_scalar_multiplication_inputs_eq]
  refine ⟨⟨?_, ?_⟩, ⟨?_, ?_⟩, ⟨?_, ?_⟩⟩ <;>
    simp [List.take_left, List.drop_left]
